import Mathlib

/-!
# Verification of the LAZ point-cloud converter (`src/streamlit_app.py`)

The repository is a single Streamlit script that decodes a LAZ point cloud
(via the external `laspy` library), normalizes the three coordinate arrays,
and re-exports them as CSV (`pandas.DataFrame.to_csv(index=False)`) or as a
three-decimal space-separated XYZ text, both UTF-8 encoded.  A second code
path fetches the input over HTTP, guarding against non-200 statuses and
HTML error pages before decoding.

Embedding choices:
* IEEE doubles are embedded as exact decimal numbers `(sign, mag, exp)`
  standing for `(-1)^sign * mag / 10^exp`: every textual format the script
  reads or writes is decimal, and the decimal values are what the claims
  are about.  Python's `str(float)` prints the shortest decimal that
  round-trips; on an exact decimal value in the positional regime
  (`v = 0` or `1e-4 <= |v| < 1e16`, where `repr` does not switch to
  scientific notation) that is the minimal positional form modelled here:
  trailing fractional zeros stripped and at least one fractional digit
  (`str(1.0) = "1.0"`).
* The decoder `laspy.read` is external; pipelines are parameterized by an
  arbitrary `decode` function returning either a point record or a raised
  exception.
* Streamlit calls (`st.error`, `st.write`, `st.success`, `st.info`,
  `st.download_button`) are modelled as an ordered list of displayed
  messages; `try/except` as a value of `Option Exn` threaded to the
  matching handler, where an `Exn` carries the Python exception class
  (`requests.HTTPError`, `RuntimeError`, `ValueError`, or other) and its
  `str(e)` text.
-/

namespace LazApp

/-- A floating-point coordinate, embedded as the exact decimal number
`(-1)^neg * mag / 10 ^ exp` (see the embedding notes above). -/
structure Dec where
  neg : Bool
  mag : Nat
  exp : Nat
deriving DecidableEq

/-- The rational value of an embedded coordinate. -/
def decValue (d : Dec) : ℚ :=
  (if d.neg then -1 else 1) * (d.mag : ℚ) / 10 ^ d.exp

/-! ## Decimal digit strings -/

/-- The character of a decimal digit (`d < 10`). -/
def digitChar : Nat → Char
  | 0 => '0' | 1 => '1' | 2 => '2' | 3 => '3' | 4 => '4'
  | 5 => '5' | 6 => '6' | 7 => '7' | 8 => '8' | _ => '9'

/-- The value of a decimal digit character. -/
def digitVal : Char → Nat
  | '0' => 0 | '1' => 1 | '2' => 2 | '3' => 3 | '4' => 4
  | '5' => 5 | '6' => 6 | '7' => 7 | '8' => 8 | '9' => 9
  | _ => 0

/-- Whether a character is a decimal digit (`'0'` through `'9'`). -/
def isDigitCh (c : Char) : Bool := decide (48 ≤ c.toNat ∧ c.toNat ≤ 57)

/-- Value of a little-endian digit list. -/
def valLE (l : List Nat) : Nat := l.foldr (fun d a => d + 10 * a) 0

/-- Little-endian decimal digits of `n`, with `fuel` bounding the recursion
(`natDigits` passes `fuel = n`, which always suffices). -/
def natDigitsAux : Nat → Nat → List Nat
  | _, 0 => []
  | 0, n + 1 => [n + 1]
  | fuel + 1, n + 1 => (n + 1) % 10 :: natDigitsAux fuel ((n + 1) / 10)

/-- Little-endian decimal digits of `n` (empty for `0`). -/
def natDigits (n : Nat) : List Nat := natDigitsAux n n

/-- The decimal digit string of `n`, as Python renders a nonnegative
integer. -/
def natChars (n : Nat) : List Char :=
  if n = 0 then ['0'] else ((natDigits n).map digitChar).reverse

/-- Exactly `k` little-endian decimal digits of `n` (the low `k` digits). -/
def fixedDigits : Nat → Nat → List Nat
  | 0, _ => []
  | k + 1, n => n % 10 :: fixedDigits k (n / 10)

/-- The width-`k` zero-padded decimal digit string of `n < 10^k`. -/
def fixedChars (k n : Nat) : List Char :=
  ((fixedDigits k n).map digitChar).reverse

/-- Numeric value of a digit string (the standard left-to-right read). -/
def charsToNat (cs : List Char) : Nat :=
  cs.foldl (fun a c => 10 * a + digitVal c) 0

/-! ## Python `str(float)` and `f"{v:.3f}"` on exact decimals -/

/-- Strip trailing fractional zeros from the decimal `mag / 10 ^ exp`:
the mantissa/exponent pair of the same value with no factor of ten left to
cancel against the exponent. -/
def stripZeros : Nat → Nat → Nat × Nat
  | m, 0 => (m, 0)
  | m, e + 1 => if m % 10 = 0 then stripZeros (m / 10) e else (m, e + 1)

/-- Python's `str()` of the embedded double: minimal positional decimal,
sign first, at least one integer and one fractional digit
(`str(1.0) = "1.0"`, `str(0.005) = "0.005"`, `str(-12.5) = "-12.5"`).
This is what `pandas.DataFrame.to_csv` writes for a float cell. -/
def str_of_float (d : Dec) : List Char :=
  let me := stripZeros d.mag d.exp
  (if d.neg then ['-'] else []) ++
    natChars (me.1 / 10 ^ me.2) ++
    '.' :: (if me.2 = 0 then ['0'] else fixedChars me.2 (me.1 % 10 ^ me.2))

/-- Round-half-even division `a / b` for `0 < b`: the rounding of a
correctly-rounded fixed-point format. -/
def roundHalfEvenDiv (a b : Nat) : Nat :=
  let q := a / b
  let r := a % b
  if 2 * r < b then q
  else if b < 2 * r then q + 1
  else if q % 2 = 0 then q else q + 1

/-- The magnitude of the embedded double scaled to thousandths and rounded
to an integer, as `f"{v:.3f}"` does. -/
def scaled3 (d : Dec) : Nat :=
  if d.exp ≤ 3 then d.mag * 10 ^ (3 - d.exp)
  else roundHalfEvenDiv d.mag (10 ^ (d.exp - 3))

/-- Python's `f"{v:.3f}"` on the embedded double: sign, integer part, and
exactly three fractional digits. -/
def fmt3 (d : Dec) : List Char :=
  (if d.neg then ['-'] else []) ++
    natChars (scaled3 d / 1000) ++ '.' :: fixedChars 3 (scaled3 d % 1000)

/-! ## UTF-8 -/

/-- UTF-8 encoding of one code point. -/
def utf8Bytes (c : Char) : List Nat :=
  let n := c.toNat
  if n < 128 then [n]
  else if n < 2048 then [192 + n / 64, 128 + n % 64]
  else if n < 65536 then [224 + n / 4096, 128 + n / 64 % 64, 128 + n % 64]
  else [240 + n / 262144, 128 + n / 4096 % 64, 128 + n / 64 % 64, 128 + n % 64]

/-- UTF-8 encoding of a string, as Python's `str.encode("utf-8")`. -/
def utf8Encode (cs : List Char) : List Nat := (cs.map utf8Bytes).flatten

/-! ## The two export formats (script lines 47-60 and 143-156) -/

/-- Pointwise zip of the three coordinate arrays, as iterating over
`np.column_stack((x, y, z))` row by row. -/
def zip3 : List Dec → List Dec → List Dec → List (Dec × Dec × Dec)
  | a :: as', b :: bs, c :: cs => (a, b, c) :: zip3 as' bs cs
  | _, _, _ => []

/-- One CSV data row, `<x>,<y>,<z>` in native precision, as
`DataFrame.to_csv` writes it. -/
def csvRow (t : Dec × Dec × Dec) : List Char :=
  str_of_float t.1 ++ ',' :: str_of_float t.2.1 ++ ',' :: str_of_float t.2.2

/-- The text `df.to_csv(index=False)` produces for
`pd.DataFrame({"X": x, "Y": y, "Z": z})`: the header row then one
newline-terminated row per point. -/
def csvChars (x y z : List Dec) : List Char :=
  "X,Y,Z".data ++ '\n' :: ((zip3 x y z).map (fun t => csvRow t ++ ['\n'])).flatten

/-- One XYZ line, `f"{a:.3f} {b:.3f} {c:.3f}"`. -/
def xyzLine (t : Dec × Dec × Dec) : List Char :=
  fmt3 t.1 ++ ' ' :: fmt3 t.2.1 ++ ' ' :: fmt3 t.2.2

/-- The script's `xyz_str`: the XYZ lines joined by `"\n".join(...)` --
no header, no trailing newline. -/
def xyz_str (x y z : List Dec) : List Char :=
  ['\n'].intercalate ((zip3 x y z).map xyzLine)

/-- The script's `csv_bytes`: the CSV text encoded as UTF-8. -/
def csv_bytes (x y z : List Dec) : List Nat := utf8Encode (csvChars x y z)

/-- The script's `xyz_bytes`: the XYZ text encoded as UTF-8. -/
def xyz_bytes (x y z : List Dec) : List Nat := utf8Encode (xyz_str x y z)

/-! ## Reading CSV back

Modelled from the spec: the repository writes CSV but never reads it; the
round-trip sentence ("exporting a PointCloud to CSV and parsing it back
yields the same coordinate values") needs a standard CSV reader.  The
reader below splits rows on newlines, fields on commas, and reads each
field as an optionally-signed positional decimal. -/

/-- Read an unsigned decimal field: digits, optionally a dot and more
digits. -/
def readUnsigned (cs : List Char) : Option ℚ :=
  match cs.splitOn '.' with
  | [ip] =>
    if ip ≠ [] ∧ ip.all isDigitCh then some (charsToNat ip) else none
  | [ip, fp] =>
    if ip ≠ [] ∧ fp ≠ [] ∧ ip.all isDigitCh ∧ fp.all isDigitCh then
      some ((charsToNat ip : ℚ) + charsToNat fp / 10 ^ fp.length)
    else none
  | _ => none

/-- Read one numeric field, with an optional leading minus sign. -/
def readField (cs : List Char) : Option ℚ :=
  if cs.head? = some '-' then (readUnsigned cs.tail).map (fun q => -q)
  else readUnsigned cs

/-- Read one data row `<x>,<y>,<z>`. -/
def readRow (cs : List Char) : Option (ℚ × ℚ × ℚ) :=
  match cs.splitOn ',' with
  | [a, b, c] =>
    match readField a, readField b, readField c with
    | some qa, some qb, some qc => some (qa, qb, qc)
    | _, _, _ => none
  | _ => none

/-- Read the data rows in order. -/
def readRows : List (List Char) → Option (List (ℚ × ℚ × ℚ))
  | [] => some []
  | r :: rs =>
    match readRow r, readRows rs with
    | some t, some ts => some (t :: ts)
    | _, _ => none

/-- Read a whole CSV export: the `X,Y,Z` header, then one row per point,
each row newline-terminated (so the text splits into header, rows, and one
empty trailing piece). -/
def readCSV (cs : List Char) : Option (List (ℚ × ℚ × ℚ)) :=
  match cs.splitOn '\n' with
  | [] => none
  | hdr :: rest =>
    if hdr = "X,Y,Z".data ∧ rest.getLast? = some [] then
      readRows rest.dropLast
    else none

/-! ## The decoded point record and its normalization (lines 35-43, 131-139) -/

/-- A field of the decoded record: `np.asarray(las.x)` is either a bare
scalar (zero-dimensional, as a decoder may return for one point) or a
one-dimensional array. -/
inductive NpField
  | scalar : Dec → NpField
  | arr : List Dec → NpField
deriving DecidableEq

/-- The script's `np.atleast_1d(np.asarray(...))`: a scalar becomes a
length-one array, an array is unchanged. -/
def atleast_1d : NpField → List Dec
  | .scalar d => [d]
  | .arr l => l

/-- The decoded `las` object: its `x`, `y`, `z` coordinate fields. -/
structure LasData where
  x : NpField
  y : NpField
  z : NpField
deriving DecidableEq

/-- The user's choice in the `st.radio("Choose output format:", ["CSV", "XYZ"])`
control. -/
inductive OutFmt
  | csv
  | xyz
deriving DecidableEq

/-- What a `st.download_button` call offers: content bytes, suggested
filename, MIME label. -/
structure ExportedTable where
  content : List Nat
  name : List Char
  mime : String
deriving DecidableEq

/-- The Python exception class of a raised exception, as far as the
script's `except` clauses distinguish them. -/
inductive ExnKind
  | httpErr      -- requests.HTTPError
  | runtimeErr   -- RuntimeError
  | valueErr     -- ValueError
  | otherErr     -- anything else
deriving DecidableEq

/-- A raised exception: its class and its `str(e)` text. -/
structure Exn where
  kind : ExnKind
  msg : String
deriving DecidableEq

/-- One Streamlit output call, in display order.  `writeBytes` stands for
`st.write` of a decoded byte preview (`data[:500].decode("utf-8",
errors="replace")`); the replacement decoding is presentation-only, so the
bytes shown are kept raw. -/
inductive Msg
  | error : String → Msg
  | write : String → Msg
  | writeBytes : List Nat → Msg
  | info : String → Msg
  | success : String → Msg
  | download : ExportedTable → Msg
deriving DecidableEq

/-- Whether a displayed message is a download offer. -/
def isDownload : Msg → Bool
  | .download _ => true
  | _ => false

/-- The tables offered for download among the displayed messages. -/
def tablesOf (msgs : List Msg) : List ExportedTable :=
  msgs.filterMap (fun m => match m with | .download t => some t | _ => none)

/-- Python's `str.replace(sub, repl)` scan: leftmost, non-overlapping, every
occurrence (not just an extension).  `fuel` bounds the recursion; the script
only replaces the nonempty needle `".laz"`, for which `fuel = s.length`
always suffices. -/
def pyReplaceAux (sub repl : List Char) : Nat → List Char → List Char
  | _, [] => []
  | 0, s => s
  | fuel + 1, c :: cs =>
    if sub.isPrefixOf (c :: cs) then
      repl ++ pyReplaceAux sub repl fuel ((c :: cs).drop sub.length)
    else c :: pyReplaceAux sub repl fuel cs

/-- Python's `s.replace(sub, repl)` for a nonempty `sub`. -/
def pyReplace (s sub repl : List Char) : List Char :=
  pyReplaceAux sub repl s.length s

/-- Whether `sub` occurs contiguously in `s`: the usual left-to-right
scan. -/
def hasSubList (sub : List Char) : List Char → Bool
  | [] => sub.isEmpty
  | c :: cs => sub.isPrefixOf (c :: cs) || hasSubList sub cs

/-- Python's `sub in s` substring test. -/
def containsSubstr (sub s : String) : Bool := hasSubList sub.data s.data

/-- Python's `f"{n:,}"`: decimal digits grouped in threes by commas,
little-endian input and output (`k` counts digits left in the current
group). -/
def commaGroupLE : Nat → List Char → List Char
  | _, [] => []
  | k, c :: cs =>
    c :: (if cs = [] then []
          else if k = 0 then ',' :: commaGroupLE 2 cs
          else commaGroupLE (k - 1) cs)

/-- Python's `f"{n:,}"` on a nonnegative integer. -/
def commaSep (n : Nat) : String :=
  String.mk (commaGroupLE 2 (natChars n).reverse).reverse

/-! ## The upload path (lines 31-89) -/

/-- The shape-mismatch message of the `ValueError` raised at lines 42-43
and 138-139. -/
def shapeMsg : String := "Coordinate arrays have mismatched lengths"

/-- The body of the upload path after a successful decode (lines 37-67):
normalize the three fields, validate equal lengths (raising `ValueError`
otherwise), then offer the chosen export.  Returns the messages displayed
and the exception raised, if any. -/
def uploadConvert (las : LasData) (fmt : OutFmt) (uploadedName : List Char) :
    List Msg × Option Exn :=
  let x := atleast_1d las.x
  let y := atleast_1d las.y
  let z := atleast_1d las.z
  if ¬(x.length = y.length ∧ y.length = z.length) then
    ([], some ⟨.valueErr, shapeMsg⟩)
  else
    let okMsg := Msg.success ("Loaded " ++ commaSep x.length ++ " points successfully ✅")
    match fmt with
    | .csv =>
      ([okMsg, .download ⟨csv_bytes x y z, pyReplace uploadedName ".laz".data ".csv".data,
        "text/csv"⟩], none)
    | .xyz =>
      ([okMsg, .download ⟨xyz_bytes x y z, pyReplace uploadedName ".laz".data ".xyz".data,
        "text/plain"⟩], none)

/-- The backend-detection test of line 72: substring-match the error text. -/
def backendPhrase (msg : String) : Bool :=
  containsSubstr "No LazBackend" msg || containsSubstr "cannot decompress" msg ||
    containsSubstr "LazBackend" msg

/-- The backend-missing banner (line 73). -/
def backendBanner : String :=
  "LAZ backend not available — Streamlit can't decompress .laz data."

/-- The remediation text of lines 74-77, naming the `lazrs` package. -/
def installHint : String :=
  "Install a LAZ backend such as `lazrs` (recommended) or `laszip`.\n\nRecommended command:\n```\npython3 -m pip install lazrs\n```"

/-- The upload path's `except Exception` handler (lines 69-89), applied to
`str(e)`: a backend-looking error gets the banner and the install hint
(the in-app installer button past them is UI-only), anything else the
generic conversion error. -/
def uploadHandler (msg : String) : List Msg :=
  if backendPhrase msg then [.error backendBanner, .write installHint]
  else [.error ("Error converting file: " ++ msg)]

/-- The whole upload interaction (lines 31-89): decode the uploaded bytes,
convert, and route any raised exception to the handler. -/
def uploadPipeline (decode : List Nat → Except Exn LasData) (bytes : List Nat)
    (fmt : OutFmt) (uploadedName : List Char) : List Msg :=
  match decode bytes with
  | .error e => uploadHandler e.msg
  | .ok las =>
    let r := uploadConvert las fmt uploadedName
    match r.2 with
    | none => r.1
    | some e => r.1 ++ uploadHandler e.msg

/-! ## The URL path (lines 111-173) -/

/-- What the script reads off the `requests.get` response: status code,
reason text, content bytes, declared content type, and decoded text. -/
structure HttpResponse where
  status : Nat
  reason : String
  body : List Nat
  contentType : String
  text : String

/-- Python's `bytes.lower()` on one byte: ASCII letters only. -/
def byteLower (b : Nat) : Nat :=
  if 65 ≤ b ∧ b ≤ 90 then b + 32 else b

/-- The ASCII bytes of a pure-ASCII literal such as `b'<!do'`. -/
def asciiBytes (s : String) : List Nat := s.data.map Char.toNat

/-- The HTML/XML detection of lines 122-126: the first 8 bytes, lowercased,
against the `<!do` / `<html` / `<?xml` markers, or `"html"` inside the
lowercased declared content type. -/
def htmlGuard (r : HttpResponse) : Bool :=
  let pre := (r.body.take 8).map byteLower
  (asciiBytes "<!do").isPrefixOf pre || (asciiBytes "<html").isPrefixOf pre ||
    (asciiBytes "<?xml").isPrefixOf pre ||
    containsSubstr "html" (String.mk (r.contentType.data.map Char.toLower))

/-- The body of the URL path after a successful decode (lines 133-163):
identical to `uploadConvert` but for the success text and the fixed
`downloaded_file.*` filenames. -/
def urlConvert (las : LasData) (fmt : OutFmt) : List Msg × Option Exn :=
  let x := atleast_1d las.x
  let y := atleast_1d las.y
  let z := atleast_1d las.z
  if ¬(x.length = y.length ∧ y.length = z.length) then
    ([], some ⟨.valueErr, shapeMsg⟩)
  else
    let okMsg := Msg.success ("Downloaded and loaded " ++ commaSep x.length ++ " points")
    match fmt with
    | .csv =>
      ([okMsg, .download ⟨csv_bytes x y z, "downloaded_file.csv".data, "text/csv"⟩], none)
    | .xyz =>
      ([okMsg, .download ⟨xyz_bytes x y z, "downloaded_file.xyz".data, "text/plain"⟩], none)

/-- The `try` body of the URL path (lines 112-163): reject a non-200
status (displaying `HTTP {status}: {reason}` and up to 1000 characters of
the body text, then raising `RuntimeError`), reject an HTML-looking body
(displaying the warning and a 500-byte preview, then raising
`RuntimeError`), otherwise decode and convert. -/
def urlTryBody (decode : List Nat → Except Exn LasData) (r : HttpResponse)
    (fmt : OutFmt) : List Msg × Option Exn :=
  if r.status = 200 then
    if htmlGuard r then
      ([.error "URL returned HTML (likely an error/redirect page) instead of a .laz file.",
        .writeBytes (r.body.take 500)], some ⟨.runtimeErr, "URL returned HTML"⟩)
    else
      match decode r.body with
      | .error e => ([], some e)
      | .ok las => urlConvert las fmt
  else
    ([.error ("HTTP " ++ String.mk (natChars r.status) ++ ": " ++ r.reason),
      .write (String.mk (r.text.data.take 1000))],
     some ⟨.runtimeErr, "HTTP " ++ String.mk (natChars r.status)⟩)

/-- The credential hint of the `except requests.HTTPError` handler's 401
branch (lines 166-168). -/
def credentialHint : String :=
  "401 Unauthorized: the URL requires credentials or a presigned URL."

/-- The whole URL interaction (lines 111-173): run the `try` body, then
dispatch a raised exception to the `except requests.HTTPError` handler
(lines 165-170) or to the generic `except Exception` handler
(lines 171-173). -/
def urlPipeline (decode : List Nat → Except Exn LasData) (r : HttpResponse)
    (fmt : OutFmt) : List Msg :=
  let b := urlTryBody decode r fmt
  match b.2 with
  | none => b.1
  | some e =>
    b.1 ++
      (if e.kind = ExnKind.httpErr then
        (if r.status = 401 then
          [.error credentialHint,
           .info "Use a presigned URL (S3) or provide token/username+password above."]
        else
          [.error ("HTTP error: " ++ String.mk (natChars r.status) ++ " " ++ r.reason)])
      else
        [.error ("Failed to fetch/parse URL: " ++ e.msg),
         .info "Ensure the URL points directly to the .laz file (use presigned S3 URL, add ?dl=1 for Dropbox, or enable public GET)."])

/-! ## The spec's wording of filename derivation

Modelled from the spec: "derived output filename = input filename with its
extension replaced by `.csv` or `.xyz`" -- the suffix from the final dot
replaced, to be compared with the script's `str.replace` call. -/

/-- The filename with its extension (everything from the final dot)
replaced by `ext`; a name with no dot gets `ext` appended. -/
def specSwapExt (name ext : List Char) : List Char :=
  if '.' ∈ name then
    ((name.reverse.dropWhile (fun c => ¬ c = '.')).tail).reverse ++ ext
  else name ++ ext

/-- The extension text of each output format. -/
def fmtExt : OutFmt → List Char
  | .csv => ".csv".data
  | .xyz => ".xyz".data

/-! ## Lemmas: digit strings -/

theorem valLE_cons (d : Nat) (l : List Nat) : valLE (d :: l) = d + 10 * valLE l := rfl

theorem valLE_append_singleton (l : List Nat) (d : Nat) :
    valLE (l ++ [d]) = valLE l + d * 10 ^ l.length := by
  induction l with
  | nil => simp [valLE]
  | cons e l ih =>
    simp only [List.cons_append, valLE_cons, ih, List.length_cons]
    ring

theorem natDigitsAux_valLE (fuel : Nat) :
    ∀ n, n ≤ fuel → valLE (natDigitsAux fuel n) = n := by
  induction fuel with
  | zero =>
    intro n hn
    obtain rfl : n = 0 := Nat.le_zero.mp hn
    rfl
  | succ f ih =>
    intro n hn
    match n with
    | 0 => rfl
    | m + 1 =>
      have hd : (m + 1) / 10 ≤ f := by
        have := Nat.div_lt_self (Nat.succ_pos m) (by norm_num : 1 < 10)
        omega
      show valLE ((m + 1) % 10 :: natDigitsAux f ((m + 1) / 10)) = m + 1
      rw [valLE_cons, ih _ hd]
      omega

theorem natDigitsAux_lt (fuel : Nat) :
    ∀ n, n ≤ fuel → ∀ d ∈ natDigitsAux fuel n, d < 10 := by
  induction fuel with
  | zero =>
    intro n hn
    obtain rfl : n = 0 := Nat.le_zero.mp hn
    simp [natDigitsAux]
  | succ f ih =>
    intro n hn
    match n with
    | 0 => simp [natDigitsAux]
    | m + 1 =>
      have hd : (m + 1) / 10 ≤ f := by
        have := Nat.div_lt_self (Nat.succ_pos m) (by norm_num : 1 < 10)
        omega
      intro d hmem
      rcases List.mem_cons.mp hmem with h | h
      · subst h; exact Nat.mod_lt _ (by norm_num)
      · exact ih _ hd d h

theorem digitVal_digitChar {d : Nat} (h : d < 10) : digitVal (digitChar d) = d := by
  interval_cases d <;> rfl

theorem isDigitCh_digitChar {d : Nat} (h : d < 10) : isDigitCh (digitChar d) = true := by
  interval_cases d <;> decide

theorem ne_of_isDigitCh {c c' : Char} (h : isDigitCh c = true) (h' : isDigitCh c' = false) :
    c ≠ c' := by
  intro e
  rw [e, h'] at h
  exact Bool.noConfusion h

theorem foldl_digit_acc (cs : List Char) :
    ∀ a : Nat, cs.foldl (fun a c => 10 * a + digitVal c) a =
      a * 10 ^ cs.length + valLE ((cs.map digitVal).reverse) := by
  induction cs with
  | nil => intro a; simp [valLE]
  | cons c cs ih =>
    intro a
    simp only [List.foldl_cons, ih, List.map_cons, List.reverse_cons, List.length_cons,
      valLE_append_singleton]
    have : ((cs.map digitVal).reverse).length = cs.length := by simp
    rw [this]
    ring

theorem charsToNat_mapRev (l : List Nat) (h : ∀ d ∈ l, d < 10) :
    charsToNat ((l.map digitChar).reverse) = valLE l := by
  rw [charsToNat, foldl_digit_acc]
  have h1 : ((l.map digitChar).reverse.map digitVal).reverse = l := by
    rw [← List.map_reverse, List.reverse_reverse, List.map_map]
    have : l.map (digitVal ∘ digitChar) = l.map id :=
      List.map_congr_left (fun d hd => digitVal_digitChar (h d hd))
    rw [this, List.map_id]
  rw [h1]
  ring

theorem charsToNat_natChars (n : Nat) : charsToNat (natChars n) = n := by
  by_cases h : n = 0
  · subst h; rfl
  · rw [natChars, if_neg h, natDigits, charsToNat_mapRev _ (natDigitsAux_lt n n (Nat.le_refl n))]
    exact natDigitsAux_valLE n n (Nat.le_refl n)

theorem fixedDigits_length : ∀ k n, (fixedDigits k n).length = k := by
  intro k
  induction k with
  | zero => intro n; rfl
  | succ k ih => intro n; simp [fixedDigits, ih]

theorem fixedDigits_lt : ∀ k n, ∀ d ∈ fixedDigits k n, d < 10 := by
  intro k
  induction k with
  | zero => intro n d hd; simp [fixedDigits] at hd
  | succ k ih =>
    intro n d hd
    rcases List.mem_cons.mp hd with h | h
    · subst h; exact Nat.mod_lt _ (by norm_num)
    · exact ih _ d h

theorem fixedDigits_valLE : ∀ k n, n < 10 ^ k → valLE (fixedDigits k n) = n := by
  intro k
  induction k with
  | zero =>
    intro n hn
    interval_cases n
    rfl
  | succ k ih =>
    intro n hn
    have hd : n / 10 < 10 ^ k := by
      apply Nat.div_lt_of_lt_mul
      calc n < 10 ^ (k + 1) := hn
      _ = 10 * 10 ^ k := by ring
    show valLE (n % 10 :: fixedDigits k (n / 10)) = n
    rw [valLE_cons, ih _ hd]
    omega

theorem charsToNat_fixedChars (k n : Nat) (h : n < 10 ^ k) :
    charsToNat (fixedChars k n) = n := by
  rw [fixedChars, charsToNat_mapRev _ (fixedDigits_lt k n)]
  exact fixedDigits_valLE k n h

theorem natChars_digits (n : Nat) : ∀ c ∈ natChars n, isDigitCh c = true := by
  intro c hc
  by_cases h : n = 0
  · subst h
    simp only [natChars, if_true, List.mem_singleton] at hc
    subst hc; rfl
  · rw [natChars, if_neg h, List.mem_reverse] at hc
    obtain ⟨d, hd, rfl⟩ := List.mem_map.mp hc
    exact isDigitCh_digitChar (natDigitsAux_lt n n (Nat.le_refl n) d hd)

theorem fixedChars_digits (k n : Nat) : ∀ c ∈ fixedChars k n, isDigitCh c = true := by
  intro c hc
  rw [fixedChars, List.mem_reverse] at hc
  obtain ⟨d, hd, rfl⟩ := List.mem_map.mp hc
  exact isDigitCh_digitChar (fixedDigits_lt k n d hd)

theorem natChars_ne_nil (n : Nat) : natChars n ≠ [] := by
  by_cases h : n = 0
  · subst h; simp [natChars]
  · rw [natChars, if_neg h]
    intro he
    rw [List.reverse_eq_nil_iff, List.map_eq_nil_iff, natDigits] at he
    match n, h, he with
    | m + 1, _, he => exact absurd he (by simp [natDigitsAux])

theorem fixedChars_ne_nil (k n : Nat) (hk : k ≠ 0) : fixedChars k n ≠ [] := by
  intro he
  have := fixedDigits_length k n
  rw [fixedChars, List.reverse_eq_nil_iff, List.map_eq_nil_iff] at he
  rw [he] at this
  exact hk this.symm

theorem fixedChars_length (k n : Nat) : (fixedChars k n).length = k := by
  simp [fixedChars, fixedDigits_length]

/-! ## Lemmas: `stripZeros` preserves the decimal value -/

theorem stripZeros_val : ∀ e m : Nat,
    ((stripZeros m e).1 : ℚ) / 10 ^ (stripZeros m e).2 = (m : ℚ) / 10 ^ e := by
  intro e
  induction e with
  | zero => intro m; rfl
  | succ e ih =>
    intro m
    by_cases h : m % 10 = 0
    · rw [show stripZeros m (e + 1) = stripZeros (m / 10) e from by rw [stripZeros, if_pos h]]
      rw [ih (m / 10)]
      obtain ⟨t, rfl⟩ : 10 ∣ m := Nat.dvd_of_mod_eq_zero h
      rw [Nat.mul_div_cancel_left t (by norm_num : 0 < 10)]
      have h10 : ((10 : ℚ) ^ e) ≠ 0 := by positivity
      push_cast
      rw [pow_succ]
      field_simp
      ring
    · rw [show stripZeros m (e + 1) = (m, e + 1) from by rw [stripZeros, if_neg h]]

/-! ## Lemmas: splitting on a separator -/

theorem splitOn_sandwich {sep : Char} (xs ys : List Char) (h : sep ∉ xs) :
    (xs ++ sep :: ys).splitOn sep = xs :: ys.splitOn sep := by
  have h1 : ∀ x ∈ xs, ¬((x == sep) = true) := fun x hx e => h ((beq_iff_eq.mp e) ▸ hx)
  exact List.splitOnP_first _ _ h1 sep (beq_self_eq_true sep) ys

theorem splitOn_single {sep : Char} (xs : List Char) (h : sep ∉ xs) :
    xs.splitOn sep = [xs] := by
  have h1 : ∀ x ∈ xs, ¬((x == sep) = true) := fun x hx e => h ((beq_iff_eq.mp e) ▸ hx)
  exact List.splitOnP_eq_single _ _ h1

/-! ## Lemmas: reading a written field back -/

theorem readUnsigned_of_parts (ip fp : List Char) (hip : ip ≠ []) (hfp : fp ≠ [])
    (hipd : ∀ c ∈ ip, isDigitCh c = true) (hfpd : ∀ c ∈ fp, isDigitCh c = true) :
    readUnsigned (ip ++ '.' :: fp) =
      some ((charsToNat ip : ℚ) + charsToNat fp / 10 ^ fp.length) := by
  have hdip : '.' ∉ ip := fun hm =>
    ne_of_isDigitCh (hipd '.' hm) (by decide : isDigitCh '.' = false) rfl
  have hdfp : '.' ∉ fp := fun hm =>
    ne_of_isDigitCh (hfpd '.' hm) (by decide : isDigitCh '.' = false) rfl
  have hs : (ip ++ '.' :: fp).splitOn '.' = [ip, fp] := by
    rw [splitOn_sandwich _ _ hdip, splitOn_single _ hdfp]
  rw [readUnsigned, hs]
  dsimp only
  rw [if_pos ⟨hip, hfp, List.all_eq_true.mpr hipd, List.all_eq_true.mpr hfpd⟩]

theorem readUnsigned_posdec (m e : Nat) :
    readUnsigned (natChars (m / 10 ^ e) ++
        '.' :: (if e = 0 then ['0'] else fixedChars e (m % 10 ^ e))) =
      some ((m : ℚ) / 10 ^ e) := by
  by_cases he : e = 0
  · subst he
    rw [if_pos rfl, readUnsigned_of_parts _ _ (natChars_ne_nil _) (by simp)
      (natChars_digits _) (by intro c hc; simp at hc; subst hc; decide)]
    simp [charsToNat_natChars]
    norm_num [charsToNat, digitVal]
  · have hpow : 0 < 10 ^ e := Nat.pos_pow_of_pos e (by norm_num)
    have hlt : m % 10 ^ e < 10 ^ e := Nat.mod_lt _ hpow
    rw [if_neg he, readUnsigned_of_parts _ _ (natChars_ne_nil _) (fixedChars_ne_nil _ _ he)
      (natChars_digits _) (fixedChars_digits _ _)]
    rw [charsToNat_natChars, charsToNat_fixedChars _ _ hlt, fixedChars_length]
    have key : (10 : ℚ) ^ e * ((m / 10 ^ e : Nat) : ℚ) + ((m % 10 ^ e : Nat) : ℚ) = (m : ℚ) := by
      exact_mod_cast congrArg (Nat.cast (R := ℚ)) (Nat.div_add_mod m (10 ^ e))
    have h10 : ((10 : ℚ) ^ e) ≠ 0 := by positivity
    rw [Option.some_inj]
    field_simp
    linarith [key]

theorem readField_not_dash {c : Char} (cs : List Char) (h : c ≠ '-') :
    readField (c :: cs) = readUnsigned (c :: cs) := by
  rw [readField, List.head?_cons, if_neg (by simp [h])]

theorem readField_dash (cs : List Char) :
    readField ('-' :: cs) = (readUnsigned cs).map (fun q => -q) := by
  rw [readField, List.head?_cons, if_pos rfl, List.tail_cons]

theorem readField_str_of_float (d : Dec) : readField (str_of_float d) = some (decValue d) := by
  have hun : readUnsigned (natChars ((stripZeros d.mag d.exp).1 / 10 ^ (stripZeros d.mag d.exp).2) ++
      '.' :: (if (stripZeros d.mag d.exp).2 = 0 then ['0']
        else fixedChars (stripZeros d.mag d.exp).2
          ((stripZeros d.mag d.exp).1 % 10 ^ (stripZeros d.mag d.exp).2))) =
      some ((d.mag : ℚ) / 10 ^ d.exp) := by
    rw [readUnsigned_posdec]
    rw [stripZeros_val]
  obtain ⟨c, cs, hcs⟩ := List.exists_cons_of_ne_nil
    (natChars_ne_nil ((stripZeros d.mag d.exp).1 / 10 ^ (stripZeros d.mag d.exp).2))
  have hcdig : isDigitCh c = true := by
    apply natChars_digits
    rw [hcs]
    exact List.mem_cons_self c cs
  have hcne : c ≠ '-' := ne_of_isDigitCh hcdig (by decide : isDigitCh '-' = false)
  cases hneg : d.neg with
  | false =>
    have hsof : str_of_float d = natChars ((stripZeros d.mag d.exp).1 / 10 ^ (stripZeros d.mag d.exp).2) ++
        '.' :: (if (stripZeros d.mag d.exp).2 = 0 then ['0']
          else fixedChars (stripZeros d.mag d.exp).2
            ((stripZeros d.mag d.exp).1 % 10 ^ (stripZeros d.mag d.exp).2)) := by
      rw [str_of_float, hneg]
      simp
    rw [hsof, hcs, List.cons_append, readField_not_dash _ hcne, ← List.cons_append, ← hcs, hun]
    rw [decValue, hneg]
    norm_num
  | true =>
    have hsof : str_of_float d = '-' :: (natChars ((stripZeros d.mag d.exp).1 / 10 ^ (stripZeros d.mag d.exp).2) ++
        '.' :: (if (stripZeros d.mag d.exp).2 = 0 then ['0']
          else fixedChars (stripZeros d.mag d.exp).2
            ((stripZeros d.mag d.exp).1 % 10 ^ (stripZeros d.mag d.exp).2))) := by
      rw [str_of_float, hneg]
      simp
    rw [hsof, readField_dash, hun]
    rw [decValue, hneg]
    simp only [Option.map_some]
    norm_num
    ring

/-! ## Lemmas: the characters a written field can contain -/

theorem str_of_float_chars (d : Dec) :
    ∀ c ∈ str_of_float d, c = '-' ∨ c = '.' ∨ isDigitCh c = true := by
  intro c hc
  cases hneg : d.neg <;>
    simp only [str_of_float, hneg, Bool.false_eq_true, if_false, if_true, List.nil_append,
      List.cons_append, List.mem_append, List.mem_cons, List.mem_singleton] at hc
  · rcases hc with h | h | h
    · exact Or.inr (Or.inr (natChars_digits _ c h))
    · exact Or.inr (Or.inl h)
    · by_cases he : (stripZeros d.mag d.exp).2 = 0
      · rw [if_pos he, List.mem_singleton] at h
        subst h; exact Or.inr (Or.inr (by decide))
      · rw [if_neg he] at h
        exact Or.inr (Or.inr (fixedChars_digits _ _ c h))
  · rcases hc with h | h | h | h
    · exact Or.inl h
    · exact Or.inr (Or.inr (natChars_digits _ c h))
    · exact Or.inr (Or.inl h)
    · by_cases he : (stripZeros d.mag d.exp).2 = 0
      · rw [if_pos he, List.mem_singleton] at h
        subst h; exact Or.inr (Or.inr (by decide))
      · rw [if_neg he] at h
        exact Or.inr (Or.inr (fixedChars_digits _ _ c h))

theorem not_mem_str_of_float {c : Char} (d : Dec) (h1 : c ≠ '-') (h2 : c ≠ '.')
    (h3 : isDigitCh c = false) : c ∉ str_of_float d := by
  intro hm
  rcases str_of_float_chars d c hm with h | h | h
  · exact h1 h
  · exact h2 h
  · rw [h3] at h
    exact Bool.noConfusion h

theorem comma_not_mem_sof (d : Dec) : ',' ∉ str_of_float d :=
  not_mem_str_of_float d (by decide) (by decide) (by decide)

theorem newline_not_mem_sof (d : Dec) : '\n' ∉ str_of_float d :=
  not_mem_str_of_float d (by decide) (by decide) (by decide)

theorem newline_not_mem_csvRow (t : Dec × Dec × Dec) : '\n' ∉ csvRow t := by
  intro h
  rw [csvRow] at h
  rcases List.mem_append.mp h with h | h
  · rcases List.mem_append.mp h with h | h
    · exact newline_not_mem_sof _ h
    · rcases List.mem_cons.mp h with h | h
      · exact absurd h (by decide)
      · exact newline_not_mem_sof _ h
  · rcases List.mem_cons.mp h with h | h
    · exact absurd h (by decide)
    · exact newline_not_mem_sof _ h

/-! ## Lemmas: reading a written CSV document back (claim C9's machinery) -/

theorem csvRow_splitOn_comma (t : Dec × Dec × Dec) :
    (csvRow t).splitOn ',' =
      [str_of_float t.1, str_of_float t.2.1, str_of_float t.2.2] := by
  rw [csvRow, List.append_assoc, List.cons_append]
  rw [splitOn_sandwich _ _ (comma_not_mem_sof _)]
  rw [splitOn_sandwich _ _ (comma_not_mem_sof _)]
  rw [splitOn_single _ (comma_not_mem_sof _)]

theorem readRow_csvRow (t : Dec × Dec × Dec) :
    readRow (csvRow t) = some (decValue t.1, decValue t.2.1, decValue t.2.2) := by
  rw [readRow, csvRow_splitOn_comma]
  dsimp only
  rw [readField_str_of_float, readField_str_of_float, readField_str_of_float]

theorem readRows_map_csvRow (rows : List (Dec × Dec × Dec)) :
    readRows (rows.map csvRow) =
      some (rows.map (fun t => (decValue t.1, decValue t.2.1, decValue t.2.2))) := by
  induction rows with
  | nil => rfl
  | cons t rows ih =>
    simp only [List.map_cons, readRows, readRow_csvRow, ih]

theorem csvBlock_splitOn (rows : List (Dec × Dec × Dec)) :
    ((rows.map (fun t => csvRow t ++ ['\n'])).flatten).splitOn '\n' =
      rows.map csvRow ++ [[]] := by
  induction rows with
  | nil => rfl
  | cons t rows ih =>
    simp only [List.map_cons, List.flatten_cons, List.append_assoc, List.singleton_append]
    rw [splitOn_sandwich _ _ (newline_not_mem_csvRow t), ih]
    rfl

theorem csvChars_splitOn (x y z : List Dec) :
    (csvChars x y z).splitOn '\n' =
      "X,Y,Z".data :: ((zip3 x y z).map csvRow ++ [[]]) := by
  rw [csvChars, splitOn_sandwich _ _ (by decide : '\n' ∉ "X,Y,Z".data), csvBlock_splitOn]

/-- C9: round-trip -- for every triple of coordinate arrays, writing the CSV
export (`X,Y,Z` header, then one row per point in native precision, as
`df.to_csv(index=False)` builds it) and reading the text back yields exactly
the written points' coordinate values, in the original order. -/
theorem c9_csv_roundtrip (x y z : List Dec) :
    readCSV (csvChars x y z) =
      some ((zip3 x y z).map (fun t => (decValue t.1, decValue t.2.1, decValue t.2.2))) := by
  rw [readCSV, csvChars_splitOn]
  dsimp only
  rw [if_pos ⟨rfl, List.getLast?_concat _⟩, List.dropLast_concat, readRows_map_csvRow]

/-! ## Lemmas: the shape of a formatted XYZ coordinate -/

theorem sign_chars {c : Char} {b : Bool} (h : c ∈ (if b then ['-'] else [])) : c = '-' := by
  cases b
  · simp at h
  · rw [if_pos rfl] at h
    exact List.mem_singleton.mp h

theorem fmt3_chars (d : Dec) :
    ∀ c ∈ fmt3 d, c = '-' ∨ c = '.' ∨ isDigitCh c = true := by
  intro c hc
  rw [fmt3] at hc
  rcases List.mem_append.mp hc with h | h
  · rcases List.mem_append.mp h with h | h
    · exact Or.inl (sign_chars h)
    · exact Or.inr (Or.inr (natChars_digits _ c h))
  · rcases List.mem_cons.mp h with h | h
    · exact Or.inr (Or.inl h)
    · exact Or.inr (Or.inr (fixedChars_digits _ _ c h))

theorem newline_not_mem_fmt3 (d : Dec) : '\n' ∉ fmt3 d := by
  intro hm
  rcases fmt3_chars d _ hm with h | h | h
  · exact absurd h (by decide)
  · exact absurd h (by decide)
  · exact absurd h (by decide)

theorem newline_not_mem_xyzLine (t : Dec × Dec × Dec) : '\n' ∉ xyzLine t := by
  intro h
  rw [xyzLine] at h
  rcases List.mem_append.mp h with h | h
  · rcases List.mem_append.mp h with h | h
    · exact newline_not_mem_fmt3 _ h
    · rcases List.mem_cons.mp h with h | h
      · exact absurd h (by decide)
      · exact newline_not_mem_fmt3 _ h
  · rcases List.mem_cons.mp h with h | h
    · exact absurd h (by decide)
    · exact newline_not_mem_fmt3 _ h

/-- The property "exactly three digits after the decimal point": the string
decomposes as a dot-free front, the dot, and exactly three digit
characters. -/
def threeDecimals (s : List Char) : Prop :=
  ∃ a b, s = a ++ '.' :: b ∧ '.' ∉ a ∧ b.length = 3 ∧ ∀ c ∈ b, isDigitCh c = true

theorem fmt3_threeDecimals (d : Dec) : threeDecimals (fmt3 d) := by
  refine ⟨(if d.neg then ['-'] else []) ++ natChars (scaled3 d / 1000),
    fixedChars 3 (scaled3 d % 1000), rfl, ?_, fixedChars_length 3 _, fixedChars_digits 3 _⟩
  intro hm
  rcases List.mem_append.mp hm with h | h
  · exact absurd (sign_chars h) (by decide)
  · exact absurd (natChars_digits _ _ h) (by decide)

/-! ## Lemmas: lengths and ASCII encoding of the XYZ text -/

theorem zip3_length (x : List Dec) : ∀ (y z : List Dec) (n : Nat),
    x.length = n → y.length = n → z.length = n → (zip3 x y z).length = n := by
  induction x with
  | nil =>
    intro y z n hx hy hz
    simp only [List.length_nil] at hx
    subst hx
    obtain rfl : y = [] := List.length_eq_zero.mp hy
    obtain rfl : z = [] := List.length_eq_zero.mp hz
    rfl
  | cons a as ih =>
    intro y z n hx hy hz
    cases y with
    | nil => simp only [List.length_cons, List.length_nil] at hx hy; omega
    | cons b bs =>
      cases z with
      | nil => simp only [List.length_cons, List.length_nil] at hx hz; omega
      | cons c cs =>
        simp only [List.length_cons] at hx hy hz
        rw [show zip3 (a :: as) (b :: bs) (c :: cs) = (a, b, c) :: zip3 as bs cs from rfl,
          List.length_cons, ih bs cs as.length rfl (by omega) (by omega)]
        omega

theorem intercalate_chars (P : Char → Prop) (sep : Char) (hsep : P sep) :
    ∀ ls : List (List Char), (∀ l ∈ ls, ∀ c ∈ l, P c) →
      ∀ c ∈ [sep].intercalate ls, P c := by
  intro ls
  induction ls with
  | nil =>
    intro _ c hc
    simp [List.intercalate] at hc
  | cons l ls ih =>
    intro h c hc
    cases ls with
    | nil =>
      simp only [List.intercalate, List.intersperse_singleton, List.flatten_cons,
        List.flatten_nil, List.append_nil] at hc
      exact h l (List.mem_cons_self _ _) c hc
    | cons l2 ls2 =>
      rw [List.intercalate, List.intersperse_cons_cons, List.flatten_cons,
        List.flatten_cons] at hc
      rcases List.mem_append.mp hc with h1 | h1
      · exact h l (List.mem_cons_self _ _) c h1
      · rcases List.mem_append.mp h1 with h2 | h2
        · rw [List.mem_singleton] at h2
          subst h2
          exact hsep
        · exact ih (fun l' hl' => h l' (List.mem_cons_of_mem _ hl')) c
            (by rw [List.intercalate]; exact h2)

theorem ascii_of_numCh {c : Char} (h : c = '-' ∨ c = '.' ∨ isDigitCh c = true) :
    c.toNat < 128 := by
  rcases h with rfl | rfl | h
  · decide
  · decide
  · have hb : 48 ≤ c.toNat ∧ c.toNat ≤ 57 := of_decide_eq_true h
    omega

theorem ascii_xyzLine (t : Dec × Dec × Dec) : ∀ c ∈ xyzLine t, c.toNat < 128 := by
  intro c hc
  rw [xyzLine] at hc
  rcases List.mem_append.mp hc with h | h
  · rcases List.mem_append.mp h with h | h
    · exact ascii_of_numCh (fmt3_chars _ c h)
    · rcases List.mem_cons.mp h with h | h
      · subst h; decide
      · exact ascii_of_numCh (fmt3_chars _ c h)
  · rcases List.mem_cons.mp h with h | h
    · subst h; decide
    · exact ascii_of_numCh (fmt3_chars _ c h)

theorem utf8Bytes_ascii {c : Char} (h : c.toNat < 128) : utf8Bytes c = [c.toNat] := by
  rw [utf8Bytes]
  simp [h]

theorem utf8Encode_ascii (cs : List Char) (h : ∀ c ∈ cs, c.toNat < 128) :
    utf8Encode cs = cs.map Char.toNat := by
  induction cs with
  | nil => rfl
  | cons c cs ih =>
    rw [utf8Encode, List.map_cons, List.flatten_cons,
      utf8Bytes_ascii (h c (List.mem_cons_self _ _)), List.map_cons]
    rw [show (cs.map utf8Bytes).flatten = utf8Encode cs from rfl,
      ih (fun c' hc' => h c' (List.mem_cons_of_mem _ hc'))]
    rfl

/-- C1: for a point cloud with `n >= 1` points, the XYZ export text splits
on newlines into exactly the `n` per-point lines and nothing else (no
header, no trailing metadata); each line is the three coordinates rendered
by `f"{v:.3f}"` separated by single spaces; every such rendering has
exactly three digits after the decimal point; the coordinate value `1` is
rendered `"1.000"`; and the exported bytes are the UTF-8 (here one byte
per ASCII character) encoding of that text. -/
theorem c1_xyz_export_format (x y z : List Dec) (n : Nat)
    (hx : x.length = n) (hy : y.length = n) (hz : z.length = n) (hn : 1 ≤ n) :
    (xyz_str x y z).splitOn '\n' = (zip3 x y z).map xyzLine ∧
    ((xyz_str x y z).splitOn '\n').length = n ∧
    (∀ t : Dec × Dec × Dec, xyzLine t = fmt3 t.1 ++ ' ' :: fmt3 t.2.1 ++ ' ' :: fmt3 t.2.2) ∧
    (∀ d : Dec, threeDecimals (fmt3 d)) ∧
    fmt3 ⟨false, 1, 0⟩ = "1.000".data ∧
    xyz_bytes x y z = (xyz_str x y z).map Char.toNat := by
  have hzlen : (zip3 x y z).length = n := zip3_length x y z n hx hy hz
  have hsplit : (xyz_str x y z).splitOn '\n' = (zip3 x y z).map xyzLine := by
    rw [xyz_str]
    apply List.splitOn_intercalate
    · intro l hl
      obtain ⟨t, _, rfl⟩ := List.mem_map.mp hl
      exact newline_not_mem_xyzLine t
    · intro he
      rw [List.map_eq_nil_iff] at he
      rw [he] at hzlen
      simp at hzlen
      omega
  refine ⟨hsplit, ?_, fun t => rfl, fmt3_threeDecimals, by decide, ?_⟩
  · rw [hsplit, List.length_map, hzlen]
  · apply utf8Encode_ascii
    rw [xyz_str]
    refine intercalate_chars (fun c => c.toNat < 128) '\n' (by decide) _ ?_
    intro l hl c hc
    obtain ⟨t, _, rfl⟩ := List.mem_map.mp hl
    exact ascii_xyzLine t c hc

/-- C1's witness: the format theorem applied to the one-point cloud
`(1, 1, 1)`. -/
theorem c1_xyz_export_format_witness :
    (xyz_str [⟨false, 1, 0⟩] [⟨false, 1, 0⟩] [⟨false, 1, 0⟩]).splitOn '\n' =
      (zip3 [⟨false, 1, 0⟩] [⟨false, 1, 0⟩] [⟨false, 1, 0⟩]).map xyzLine ∧
    ((xyz_str [⟨false, 1, 0⟩] [⟨false, 1, 0⟩] [⟨false, 1, 0⟩]).splitOn '\n').length = 1 ∧
    (∀ t : Dec × Dec × Dec, xyzLine t = fmt3 t.1 ++ ' ' :: fmt3 t.2.1 ++ ' ' :: fmt3 t.2.2) ∧
    (∀ d : Dec, threeDecimals (fmt3 d)) ∧
    fmt3 ⟨false, 1, 0⟩ = "1.000".data ∧
    xyz_bytes [⟨false, 1, 0⟩] [⟨false, 1, 0⟩] [⟨false, 1, 0⟩] =
      (xyz_str [⟨false, 1, 0⟩] [⟨false, 1, 0⟩] [⟨false, 1, 0⟩]).map Char.toNat :=
  c1_xyz_export_format [⟨false, 1, 0⟩] [⟨false, 1, 0⟩] [⟨false, 1, 0⟩] 1 rfl rfl rfl
    (Nat.le_refl 1)

/-! ## Small evaluation lemmas for the message lists -/

theorem tablesOf_nil : tablesOf [] = [] := rfl

theorem tablesOf_uploadHandler (msg : String) : tablesOf (uploadHandler msg) = [] := by
  rw [uploadHandler]
  split <;> rfl

theorem tablesOf_append (a b : List Msg) : tablesOf (a ++ b) = tablesOf a ++ tablesOf b :=
  List.filterMap_append a b _

/-- C2: the empty point cloud exports without failing -- CSV output is
exactly the header line `X,Y,Z` (as text and as UTF-8 bytes), XYZ output is
the empty string and the empty byte sequence, and the conversion raises
nothing, offering the (header-only or empty) download. -/
theorem c2_empty_cloud_export :
    csvChars [] [] [] = "X,Y,Z\n".data ∧
    csv_bytes [] [] [] = [88, 44, 89, 44, 90, 10] ∧
    xyz_str [] [] [] = [] ∧
    xyz_bytes [] [] [] = [] ∧
    (uploadConvert ⟨.arr [], .arr [], .arr []⟩ .csv "pts.laz".data).2 = none ∧
    (uploadConvert ⟨.arr [], .arr [], .arr []⟩ .xyz "pts.laz".data).2 = none ∧
    (tablesOf (uploadConvert ⟨.arr [], .arr [], .arr []⟩ .csv "pts.laz".data).1).map
      (fun t => t.content) = [[88, 44, 89, 44, 90, 10]] ∧
    (tablesOf (uploadConvert ⟨.arr [], .arr [], .arr []⟩ .xyz "pts.laz".data).1).map
      (fun t => t.content) = [[]] := by
  decide

/-- C3's counterexample: for the single decoded point
`x = 12.5, y = 7.25, z = 0.0` the CSV export's data row is
`"12.5,7.25,0.0"` -- the native-precision rendering of
`df.to_csv` -- and not the `"12.500,7.250,0.000"` the claim states. -/
theorem c3_csv_row_counterexample :
    csvChars [⟨false, 125, 1⟩] [⟨false, 725, 2⟩] [⟨false, 0, 0⟩] =
      "X,Y,Z\n12.5,7.25,0.0\n".data ∧
    csvChars [⟨false, 125, 1⟩] [⟨false, 725, 2⟩] [⟨false, 0, 0⟩] ≠
      "X,Y,Z\n12.500,7.250,0.000\n".data := by
  decide

/-- C3 amended: the decoder's scalar fields are normalized to
one-dimensional arrays of length 1 (`np.atleast_1d`), and for the single
point `x = 12.5, y = 7.25, z = 0.0` the CSV data row is the
native-precision `"12.5,7.25,0.0"`; the fixed three-decimal rendering
`"12.500 7.250 0.000"` is that point's XYZ line, not its CSV row. -/
theorem c3_single_point_amended (a b c : Dec) :
    atleast_1d (NpField.scalar a) = [a] ∧
    (atleast_1d (NpField.scalar a)).length = 1 ∧
    (uploadConvert ⟨.scalar a, .scalar b, .scalar c⟩ .csv "pts.laz".data).2 = none ∧
    csvChars [⟨false, 125, 1⟩] [⟨false, 725, 2⟩] [⟨false, 0, 0⟩] =
      "X,Y,Z\n12.5,7.25,0.0\n".data ∧
    xyzLine (⟨false, 125, 1⟩, ⟨false, 725, 2⟩, ⟨false, 0, 0⟩) =
      "12.500 7.250 0.000".data := by
  refine ⟨rfl, rfl, ?_, by decide, by decide⟩
  rw [uploadConvert, if_neg (by simp [atleast_1d])]

/-- C4: whenever the normalized coordinate arrays do not all have equal
lengths, both conversion paths raise the shape-mismatch `ValueError` having
displayed nothing, the upload interaction surfaces exactly the generic
conversion error carrying that message, and no download is offered (the
arrays are never truncated to a common length). -/
theorem c4_shape_mismatch (las : LasData) (fmt : OutFmt) (name : List Char) (bytes : List Nat)
    (h : ¬((atleast_1d las.x).length = (atleast_1d las.y).length ∧
        (atleast_1d las.y).length = (atleast_1d las.z).length)) :
    uploadConvert las fmt name = ([], some ⟨.valueErr, shapeMsg⟩) ∧
    urlConvert las fmt = ([], some ⟨.valueErr, shapeMsg⟩) ∧
    uploadPipeline (fun _ => .ok las) bytes fmt name =
      [.error ("Error converting file: " ++ shapeMsg)] ∧
    (∀ m ∈ uploadPipeline (fun _ => .ok las) bytes fmt name, isDownload m = false) := by
  have h1 : uploadConvert las fmt name = ([], some ⟨.valueErr, shapeMsg⟩) := by
    rw [uploadConvert, if_pos h]
  have h2 : urlConvert las fmt = ([], some ⟨.valueErr, shapeMsg⟩) := by
    rw [urlConvert, if_pos h]
  have hb : backendPhrase shapeMsg = false := by decide
  have h3 : uploadPipeline (fun _ => .ok las) bytes fmt name =
      [.error ("Error converting file: " ++ shapeMsg)] := by
    rw [uploadPipeline]
    dsimp only
    rw [h1]
    dsimp only
    rw [uploadHandler, if_neg (by rw [hb]; exact Bool.false_ne_true)]
    rfl
  refine ⟨h1, h2, h3, ?_⟩
  intro m hm
  rw [h3] at hm
  rw [List.mem_singleton.mp hm]
  rfl

/-- C4's witness: arrays of lengths 2, 1, 1. -/
theorem c4_shape_mismatch_witness :
    uploadConvert ⟨.arr [⟨false, 1, 0⟩, ⟨false, 2, 0⟩], .arr [⟨false, 1, 0⟩],
        .arr [⟨false, 1, 0⟩]⟩ .csv "pts.laz".data = ([], some ⟨.valueErr, shapeMsg⟩) ∧
    urlConvert ⟨.arr [⟨false, 1, 0⟩, ⟨false, 2, 0⟩], .arr [⟨false, 1, 0⟩],
        .arr [⟨false, 1, 0⟩]⟩ .csv = ([], some ⟨.valueErr, shapeMsg⟩) ∧
    uploadPipeline (fun _ => .ok ⟨.arr [⟨false, 1, 0⟩, ⟨false, 2, 0⟩], .arr [⟨false, 1, 0⟩],
        .arr [⟨false, 1, 0⟩]⟩) [] .csv "pts.laz".data =
      [.error ("Error converting file: " ++ shapeMsg)] ∧
    (∀ m ∈ uploadPipeline (fun _ => .ok ⟨.arr [⟨false, 1, 0⟩, ⟨false, 2, 0⟩],
        .arr [⟨false, 1, 0⟩], .arr [⟨false, 1, 0⟩]⟩) [] .csv "pts.laz".data,
      isDownload m = false) :=
  c4_shape_mismatch ⟨.arr [⟨false, 1, 0⟩, ⟨false, 2, 0⟩], .arr [⟨false, 1, 0⟩],
    .arr [⟨false, 1, 0⟩]⟩ .csv "pts.laz".data [] (by decide)

/-! ## The URL path's error branches -/

theorem ne_of_data_head {s t : String} {c c' : Char} {cs cs' : List Char}
    (hs : s.data = c :: cs) (ht : t.data = c' :: cs') (h : c ≠ c') : s ≠ t := by
  intro he
  rw [he, ht] at hs
  exact h (List.cons_eq_cons.mp hs).1.symm

/-- C5: for a response with a non-200 status, the URL pipeline displays the
error `HTTP {status}: {reason}` and the body text, never invokes the
decoder (the output is the same for every decoder), and offers no
download; but -- against the claim's 401 clause -- the credential/presigned
URL hint is never among the displayed messages, because the
`except requests.HTTPError` handler that would show it is unreachable (the
`try` body raises `RuntimeError`, not `requests.HTTPError`). -/
theorem c5_non200_status (decode decode' : List Nat → Except Exn LasData)
    (r : HttpResponse) (fmt fmt' : OutFmt) (h : ¬r.status = 200) :
    urlPipeline decode r fmt =
      [.error ("HTTP " ++ String.mk (natChars r.status) ++ ": " ++ r.reason),
       .write (String.mk (r.text.data.take 1000)),
       .error ("Failed to fetch/parse URL: " ++ ("HTTP " ++ String.mk (natChars r.status))),
       .info "Ensure the URL points directly to the .laz file (use presigned S3 URL, add ?dl=1 for Dropbox, or enable public GET)."] ∧
    urlPipeline decode r fmt = urlPipeline decode' r fmt' ∧
    (∀ m ∈ urlPipeline decode r fmt, isDownload m = false) ∧
    Msg.error credentialHint ∉ urlPipeline decode r fmt ∧
    Msg.info "Use a presigned URL (S3) or provide token/username+password above." ∉
      urlPipeline decode r fmt := by
  have key : ∀ (d : List Nat → Except Exn LasData) (f : OutFmt), urlPipeline d r f =
      [.error ("HTTP " ++ String.mk (natChars r.status) ++ ": " ++ r.reason),
       .write (String.mk (r.text.data.take 1000)),
       .error ("Failed to fetch/parse URL: " ++ ("HTTP " ++ String.mk (natChars r.status))),
       .info "Ensure the URL points directly to the .laz file (use presigned S3 URL, add ?dl=1 for Dropbox, or enable public GET)."] := by
    intro d f
    rw [urlPipeline, urlTryBody, if_neg h]
    dsimp only
    rw [if_neg (by decide : ¬ExnKind.runtimeErr = ExnKind.httpErr)]
    rfl
  refine ⟨key decode fmt, (key decode fmt).trans (key decode' fmt').symm, ?_, ?_, ?_⟩
  · intro m hm
    rw [key decode fmt] at hm
    rcases List.mem_cons.mp hm with h1 | h1
    · rw [h1]; rfl
    rcases List.mem_cons.mp h1 with h1 | h1
    · rw [h1]; rfl
    rcases List.mem_cons.mp h1 with h1 | h1
    · rw [h1]; rfl
    rw [List.mem_singleton.mp h1]
    rfl
  · rw [key decode fmt]
    intro hm
    rcases List.mem_cons.mp hm with h1 | h1
    · exact ne_of_data_head (t := "HTTP " ++ String.mk (natChars r.status) ++ ": " ++ r.reason)
        rfl rfl (by decide) (Msg.error.inj h1)
    rcases List.mem_cons.mp h1 with h1 | h1
    · exact Msg.noConfusion h1
    rcases List.mem_cons.mp h1 with h1 | h1
    · exact ne_of_data_head
        (t := "Failed to fetch/parse URL: " ++ ("HTTP " ++ String.mk (natChars r.status)))
        rfl rfl (by decide) (Msg.error.inj h1)
    · exact Msg.noConfusion (List.mem_singleton.mp h1)
  · rw [key decode fmt]
    intro hm
    rcases List.mem_cons.mp hm with h1 | h1
    · exact Msg.noConfusion h1
    rcases List.mem_cons.mp h1 with h1 | h1
    · exact Msg.noConfusion h1
    rcases List.mem_cons.mp h1 with h1 | h1
    · exact Msg.noConfusion h1
    · exact absurd (Msg.info.inj (List.mem_singleton.mp h1)) (by decide)

/-- C5's witness: a 401 response -- the generic messages are shown and the
credential hint is not. -/
theorem c5_non200_status_witness :
    urlPipeline (fun _ => .error ⟨.otherErr, "x"⟩) ⟨401, "Unauthorized", [], "", "body text"⟩ .csv =
      [.error ("HTTP " ++ String.mk (natChars 401) ++ ": " ++ "Unauthorized"),
       .write (String.mk (("body text" : String).data.take 1000)),
       .error ("Failed to fetch/parse URL: " ++ ("HTTP " ++ String.mk (natChars 401))),
       .info "Ensure the URL points directly to the .laz file (use presigned S3 URL, add ?dl=1 for Dropbox, or enable public GET)."] ∧
    urlPipeline (fun _ => .error ⟨.otherErr, "x"⟩) ⟨401, "Unauthorized", [], "", "body text"⟩ .csv =
      urlPipeline (fun _ => .ok ⟨.arr [], .arr [], .arr []⟩)
        ⟨401, "Unauthorized", [], "", "body text"⟩ .xyz ∧
    (∀ m ∈ urlPipeline (fun _ => .error ⟨.otherErr, "x"⟩)
        ⟨401, "Unauthorized", [], "", "body text"⟩ .csv, isDownload m = false) ∧
    Msg.error credentialHint ∉ urlPipeline (fun _ => .error ⟨.otherErr, "x"⟩)
      ⟨401, "Unauthorized", [], "", "body text"⟩ .csv ∧
    Msg.info "Use a presigned URL (S3) or provide token/username+password above." ∉
      urlPipeline (fun _ => .error ⟨.otherErr, "x"⟩)
        ⟨401, "Unauthorized", [], "", "body text"⟩ .csv :=
  c5_non200_status (fun _ => .error ⟨.otherErr, "x"⟩) (fun _ => .ok ⟨.arr [], .arr [], .arr []⟩)
    ⟨401, "Unauthorized", [], "", "body text"⟩ .csv .xyz (by decide)

/-- C6: a 200 response whose first 8 lowercased bytes begin with `<!do`,
`<html` or `<?xml`, or whose lowercased content type contains `"html"`, is
rejected with the HTML warning and a `RuntimeError` before the decoder ever
runs: the output is independent of the decoder and offers no download. -/
theorem c6_html_guard (decode decode' : List Nat → Except Exn LasData)
    (r : HttpResponse) (fmt fmt' : OutFmt) (h200 : r.status = 200)
    (hg : htmlGuard r = true) :
    urlTryBody decode r fmt =
      ([.error "URL returned HTML (likely an error/redirect page) instead of a .laz file.",
        .writeBytes (r.body.take 500)], some ⟨.runtimeErr, "URL returned HTML"⟩) ∧
    urlPipeline decode r fmt = urlPipeline decode' r fmt' ∧
    (∀ m ∈ urlPipeline decode r fmt, isDownload m = false) := by
  have hb : ∀ (d : List Nat → Except Exn LasData) (f : OutFmt), urlTryBody d r f =
      ([.error "URL returned HTML (likely an error/redirect page) instead of a .laz file.",
        .writeBytes (r.body.take 500)], some ⟨.runtimeErr, "URL returned HTML"⟩) := by
    intro d f
    rw [urlTryBody, if_pos h200, if_pos hg]
  have key : ∀ (d : List Nat → Except Exn LasData) (f : OutFmt), urlPipeline d r f =
      [.error "URL returned HTML (likely an error/redirect page) instead of a .laz file.",
       .writeBytes (r.body.take 500),
       .error ("Failed to fetch/parse URL: " ++ "URL returned HTML"),
       .info "Ensure the URL points directly to the .laz file (use presigned S3 URL, add ?dl=1 for Dropbox, or enable public GET)."] := by
    intro d f
    rw [urlPipeline, hb d f]
    dsimp only
    rw [if_neg (by decide : ¬ExnKind.runtimeErr = ExnKind.httpErr)]
    rfl
  refine ⟨hb decode fmt, (key decode fmt).trans (key decode' fmt').symm, ?_⟩
  intro m hm
  rw [key decode fmt] at hm
  rcases List.mem_cons.mp hm with h1 | h1
  · rw [h1]; rfl
  rcases List.mem_cons.mp h1 with h1 | h1
  · rw [h1]; rfl
  rcases List.mem_cons.mp h1 with h1 | h1
  · rw [h1]; rfl
  rw [List.mem_singleton.mp h1]
  rfl

/-- C6's witness: a 200 response whose body starts `<HtMl>` (mixed case)
and whose declared content type also names html. -/
theorem c6_html_guard_witness :
    urlTryBody (fun _ => .ok ⟨.arr [], .arr [], .arr []⟩)
        ⟨200, "OK", asciiBytes "<HtMl><body>error page</body>", "text/html", ""⟩ .csv =
      ([.error "URL returned HTML (likely an error/redirect page) instead of a .laz file.",
        .writeBytes ((asciiBytes "<HtMl><body>error page</body>").take 500)],
       some ⟨.runtimeErr, "URL returned HTML"⟩) ∧
    urlPipeline (fun _ => .ok ⟨.arr [], .arr [], .arr []⟩)
        ⟨200, "OK", asciiBytes "<HtMl><body>error page</body>", "text/html", ""⟩ .csv =
      urlPipeline (fun _ => .error ⟨.otherErr, "x"⟩)
        ⟨200, "OK", asciiBytes "<HtMl><body>error page</body>", "text/html", ""⟩ .xyz ∧
    (∀ m ∈ urlPipeline (fun _ => .ok ⟨.arr [], .arr [], .arr []⟩)
        ⟨200, "OK", asciiBytes "<HtMl><body>error page</body>", "text/html", ""⟩ .csv,
      isDownload m = false) :=
  c6_html_guard (fun _ => .ok ⟨.arr [], .arr [], .arr []⟩) (fun _ => .error ⟨.otherErr, "x"⟩)
    ⟨200, "OK", asciiBytes "<HtMl><body>error page</body>", "text/html", ""⟩ .csv .xyz
    rfl (by decide)

/-! ## Decode-error classification -/

theorem isPrefixOf_self (l : List Char) : l.isPrefixOf l = true := by
  induction l with
  | nil => rfl
  | cons c cs ih => simp [List.isPrefixOf, ih]

theorem hasSubList_append (l pre : List Char) : hasSubList l (pre ++ l) = true := by
  induction pre with
  | nil =>
    cases l with
    | nil => rfl
    | cons c cs =>
      rw [List.nil_append, hasSubList, isPrefixOf_self]
      rfl
  | cons p pre ih =>
    rw [List.cons_append, hasSubList, ih]
    simp

/-- C7: a decode failure whose text contains one of the backend phrases
(`"No LazBackend"`, `"cannot decompress"`, `"LazBackend"`) is reported as
the backend-unavailable banner together with the remediation text naming
the `lazrs` package; any other failure is reported as the generic
conversion error carrying the underlying message verbatim. -/
theorem c7_decode_error_classification (msg : String) :
    (backendPhrase msg = true →
      uploadHandler msg = [.error backendBanner, .write installHint] ∧
      containsSubstr "lazrs" installHint = true) ∧
    (backendPhrase msg = false →
      uploadHandler msg = [.error ("Error converting file: " ++ msg)] ∧
      containsSubstr msg ("Error converting file: " ++ msg) = true) := by
  constructor
  · intro h
    exact ⟨by rw [uploadHandler, if_pos h], by decide⟩
  · intro h
    refine ⟨by rw [uploadHandler, if_neg (by rw [h]; exact Bool.false_ne_true)], ?_⟩
    exact hasSubList_append msg.data ("Error converting file: ").data

/-- C7's witness: one backend-phrase message and one generic message. -/
theorem c7_decode_error_classification_witness :
    uploadHandler "No LazBackend selected, cannot decompress data" =
      [.error backendBanner, .write installHint] ∧
    containsSubstr "lazrs" installHint = true ∧
    uploadHandler "buffer too short" =
      [.error ("Error converting file: " ++ "buffer too short")] ∧
    containsSubstr "buffer too short" ("Error converting file: " ++ "buffer too short") = true :=
  ⟨((c7_decode_error_classification "No LazBackend selected, cannot decompress data").1
      (by decide)).1,
   ((c7_decode_error_classification "No LazBackend selected, cannot decompress data").1
      (by decide)).2,
   ((c7_decode_error_classification "buffer too short").2 (by decide)).1,
   ((c7_decode_error_classification "buffer too short").2 (by decide)).2⟩

/-! ## Filenames: `str.replace` against extension replacement -/

theorem pyReplaceAux_nil (sub repl : List Char) (fuel : Nat) :
    pyReplaceAux sub repl fuel [] = [] := by
  cases fuel <;> rfl

theorem pyReplaceAux_cons (sub repl : List Char) (fuel : Nat) (c : Char) (cs : List Char) :
    pyReplaceAux sub repl (fuel + 1) (c :: cs) =
      if sub.isPrefixOf (c :: cs) then
        repl ++ pyReplaceAux sub repl fuel ((c :: cs).drop sub.length)
      else c :: pyReplaceAux sub repl fuel cs := rfl

theorem pyReplaceAux_ext (repl : List Char) :
    ∀ stem : List Char, '.' ∉ stem → ∀ fuel, (stem ++ ".laz".data).length ≤ fuel →
      pyReplaceAux ".laz".data repl fuel (stem ++ ".laz".data) = stem ++ repl := by
  intro stem
  induction stem with
  | nil =>
    intro _ fuel hf
    simp only [List.nil_append] at hf ⊢
    cases fuel with
    | zero => simp at hf
    | succ f =>
      show pyReplaceAux ".laz".data repl (f + 1) ('.' :: "laz".data) = repl
      rw [pyReplaceAux_cons, if_pos (by decide)]
      show repl ++ pyReplaceAux ".laz".data repl f [] = repl
      rw [pyReplaceAux_nil, List.append_nil]
  | cons c cs ih =>
    intro hdot fuel hf
    have hc : ¬c = '.' := fun e => hdot (List.mem_cons.mpr (Or.inl e.symm))
    cases fuel with
    | zero =>
      exfalso
      simp only [List.cons_append, List.length_cons] at hf
      omega
    | succ f =>
      rw [List.cons_append, pyReplaceAux_cons]
      have hpre : (".laz".data).isPrefixOf (c :: (cs ++ ".laz".data)) = false := by
        show (('.' == c) && ("laz".data).isPrefixOf (cs ++ ".laz".data)) = false
        rw [show ('.' == c) = false from beq_eq_false_iff_ne.mpr (fun e => hc e.symm)]
        rfl
      rw [if_neg (by rw [hpre]; exact Bool.false_ne_true)]
      rw [ih (fun hm => hdot (List.mem_cons_of_mem c hm)) f
        (by simp only [List.cons_append, List.length_cons, List.length_append] at hf ⊢; omega)]
      rfl

theorem pyReplace_ext (stem repl : List Char) (h : '.' ∉ stem) :
    pyReplace (stem ++ ".laz".data) ".laz".data repl = stem ++ repl := by
  rw [pyReplace]
  exact pyReplaceAux_ext repl stem h _ (Nat.le_refl _)

theorem tablesOf_success (s : String) (msgs : List Msg) :
    tablesOf (.success s :: msgs) = tablesOf msgs := rfl

theorem tablesOf_download (t : ExportedTable) (msgs : List Msg) :
    tablesOf (.download t :: msgs) = t :: tablesOf msgs := rfl

theorem uploadConvert_ok_csv (las : LasData) (name : List Char)
    (hc : (atleast_1d las.x).length = (atleast_1d las.y).length ∧
        (atleast_1d las.y).length = (atleast_1d las.z).length) :
    uploadConvert las .csv name =
      ([.success ("Loaded " ++ commaSep (atleast_1d las.x).length ++ " points successfully ✅"),
        .download ⟨csv_bytes (atleast_1d las.x) (atleast_1d las.y) (atleast_1d las.z),
          pyReplace name ".laz".data ".csv".data, "text/csv"⟩], none) := by
  rw [uploadConvert, if_neg (not_not_intro hc)]

theorem uploadConvert_ok_xyz (las : LasData) (name : List Char)
    (hc : (atleast_1d las.x).length = (atleast_1d las.y).length ∧
        (atleast_1d las.y).length = (atleast_1d las.z).length) :
    uploadConvert las .xyz name =
      ([.success ("Loaded " ++ commaSep (atleast_1d las.x).length ++ " points successfully ✅"),
        .download ⟨xyz_bytes (atleast_1d las.x) (atleast_1d las.y) (atleast_1d las.z),
          pyReplace name ".laz".data ".xyz".data, "text/plain"⟩], none) := by
  rw [uploadConvert, if_neg (not_not_intro hc)]

theorem urlConvert_ok_csv (las : LasData)
    (hc : (atleast_1d las.x).length = (atleast_1d las.y).length ∧
        (atleast_1d las.y).length = (atleast_1d las.z).length) :
    urlConvert las .csv =
      ([.success ("Downloaded and loaded " ++ commaSep (atleast_1d las.x).length ++ " points"),
        .download ⟨csv_bytes (atleast_1d las.x) (atleast_1d las.y) (atleast_1d las.z),
          "downloaded_file.csv".data, "text/csv"⟩], none) := by
  rw [urlConvert, if_neg (not_not_intro hc)]

theorem urlConvert_ok_xyz (las : LasData)
    (hc : (atleast_1d las.x).length = (atleast_1d las.y).length ∧
        (atleast_1d las.y).length = (atleast_1d las.z).length) :
    urlConvert las .xyz =
      ([.success ("Downloaded and loaded " ++ commaSep (atleast_1d las.x).length ++ " points"),
        .download ⟨xyz_bytes (atleast_1d las.x) (atleast_1d las.y) (atleast_1d las.z),
          "downloaded_file.xyz".data, "text/plain"⟩], none) := by
  rw [urlConvert, if_neg (not_not_intro hc)]

/-- C8's counterexample: the upload path's `str.replace(".laz", ".csv")`
replaces every occurrence of the substring, not the extension: the
uploaded name `"a.laz.laz"` yields `"a.csv.csv"`, while replacing the
extension (the spec's wording, `specSwapExt`) would yield `"a.laz.csv"`. -/
theorem c8_filename_counterexample :
    pyReplace "a.laz.laz".data ".laz".data ".csv".data = "a.csv.csv".data ∧
    specSwapExt "a.laz.laz".data ".csv".data = "a.laz.csv".data ∧
    pyReplace "a.laz.laz".data ".laz".data ".csv".data ≠
      specSwapExt "a.laz.laz".data ".csv".data ∧
    (tablesOf (uploadConvert ⟨.arr [⟨false, 1, 0⟩], .arr [⟨false, 1, 0⟩], .arr [⟨false, 1, 0⟩]⟩
        .csv "a.laz.laz".data).1).map (fun t => t.name) = ["a.csv.csv".data] := by
  decide

/-- C8 amended: for an uploaded name `stem ++ ".laz"` whose stem contains
no dot (so the only occurrence of `".laz"` is the extension), the suggested
name is the stem with the new extension -- on such names `str.replace`
agrees with extension replacement; in general every occurrence of `".laz"`
is replaced.  Every upload download is named by that `str.replace`, and
every URL download carries the fixed `downloaded_file.csv` /
`downloaded_file.xyz` name. -/
theorem c8_output_filenames_amended (stem : List Char) (fmt : OutFmt) (las : LasData)
    (name : List Char) (h : '.' ∉ stem) :
    pyReplace (stem ++ ".laz".data) ".laz".data (fmtExt fmt) = stem ++ fmtExt fmt ∧
    (∀ t ∈ tablesOf (uploadConvert las fmt name).1,
      t.name = pyReplace name ".laz".data (fmtExt fmt)) ∧
    (∀ t ∈ tablesOf (urlConvert las fmt).1,
      t.name = "downloaded_file".data ++ fmtExt fmt) := by
  refine ⟨pyReplace_ext stem (fmtExt fmt) h, ?_, ?_⟩
  · intro t ht
    by_cases hc : (atleast_1d las.x).length = (atleast_1d las.y).length ∧
        (atleast_1d las.y).length = (atleast_1d las.z).length
    · cases fmt with
      | csv =>
        rw [uploadConvert_ok_csv las name hc, tablesOf_success, tablesOf_download,
          tablesOf_nil] at ht
        rw [List.mem_singleton.mp ht]
        rfl
      | xyz =>
        rw [uploadConvert_ok_xyz las name hc, tablesOf_success, tablesOf_download,
          tablesOf_nil] at ht
        rw [List.mem_singleton.mp ht]
        rfl
    · rw [uploadConvert, if_pos hc] at ht
      exact absurd ht (List.not_mem_nil t)
  · intro t ht
    by_cases hc : (atleast_1d las.x).length = (atleast_1d las.y).length ∧
        (atleast_1d las.y).length = (atleast_1d las.z).length
    · cases fmt with
      | csv =>
        rw [urlConvert_ok_csv las hc, tablesOf_success, tablesOf_download, tablesOf_nil] at ht
        rw [List.mem_singleton.mp ht]
        rfl
      | xyz =>
        rw [urlConvert_ok_xyz las hc, tablesOf_success, tablesOf_download, tablesOf_nil] at ht
        rw [List.mem_singleton.mp ht]
        rfl
    · rw [urlConvert, if_pos hc] at ht
      exact absurd ht (List.not_mem_nil t)

/-- C8's witness: the dot-free stem `"points"`. -/
theorem c8_output_filenames_witness :
    pyReplace ("points".data ++ ".laz".data) ".laz".data (fmtExt .csv) =
      "points".data ++ fmtExt .csv ∧
    (∀ t ∈ tablesOf (uploadConvert ⟨.arr [⟨false, 1, 0⟩], .arr [⟨false, 1, 0⟩],
        .arr [⟨false, 1, 0⟩]⟩ .csv "points.laz".data).1,
      t.name = pyReplace "points.laz".data ".laz".data (fmtExt .csv)) ∧
    (∀ t ∈ tablesOf (urlConvert ⟨.arr [⟨false, 1, 0⟩], .arr [⟨false, 1, 0⟩],
        .arr [⟨false, 1, 0⟩]⟩ .csv).1,
      t.name = "downloaded_file".data ++ fmtExt .csv) :=
  c8_output_filenames_amended "points".data .csv
    ⟨.arr [⟨false, 1, 0⟩], .arr [⟨false, 1, 0⟩], .arr [⟨false, 1, 0⟩]⟩
    "points.laz".data (by decide)

/-! ## The two conversion paths agree on the exported bytes -/

theorem tablesOf_uploadPipeline_ok (decode : List Nat → Except Exn LasData) (bytes : List Nat)
    (fmt : OutFmt) (name : List Char) (las : LasData) (hd : decode bytes = .ok las) :
    tablesOf (uploadPipeline decode bytes fmt name) = tablesOf (uploadConvert las fmt name).1 := by
  rw [uploadPipeline, hd]
  dsimp only
  cases he : (uploadConvert las fmt name).2 with
  | none => rfl
  | some e => rw [tablesOf_append, tablesOf_uploadHandler, List.append_nil]

theorem tablesOf_uploadPipeline_err (decode : List Nat → Except Exn LasData) (bytes : List Nat)
    (fmt : OutFmt) (name : List Char) (e : Exn) (hd : decode bytes = .error e) :
    tablesOf (uploadPipeline decode bytes fmt name) = [] := by
  rw [uploadPipeline, hd]
  exact tablesOf_uploadHandler e.msg

theorem tablesOf_urlHandler (r : HttpResponse) (e : Exn) :
    tablesOf (if e.kind = ExnKind.httpErr then
      (if r.status = 401 then
        [.error credentialHint,
         .info "Use a presigned URL (S3) or provide token/username+password above."]
      else
        [.error ("HTTP error: " ++ String.mk (natChars r.status) ++ " " ++ r.reason)])
    else
      [.error ("Failed to fetch/parse URL: " ++ e.msg),
       .info "Ensure the URL points directly to the .laz file (use presigned S3 URL, add ?dl=1 for Dropbox, or enable public GET)."]) = [] := by
  by_cases hk : e.kind = ExnKind.httpErr
  · rw [if_pos hk]
    by_cases hs : r.status = 401
    · rw [if_pos hs]; rfl
    · rw [if_neg hs]; rfl
  · rw [if_neg hk]; rfl

theorem tablesOf_urlPipeline_ok (decode : List Nat → Except Exn LasData) (r : HttpResponse)
    (fmt : OutFmt) (las : LasData) (h200 : r.status = 200) (hg : htmlGuard r = false)
    (hd : decode r.body = .ok las) :
    tablesOf (urlPipeline decode r fmt) = tablesOf (urlConvert las fmt).1 := by
  rw [urlPipeline, urlTryBody, if_pos h200, if_neg (by rw [hg]; exact Bool.false_ne_true), hd]
  dsimp only
  cases he : (urlConvert las fmt).2 with
  | none => rfl
  | some e => rw [tablesOf_append, tablesOf_urlHandler, List.append_nil]

theorem tablesOf_urlPipeline_err (decode : List Nat → Except Exn LasData) (r : HttpResponse)
    (fmt : OutFmt) (e : Exn) (h200 : r.status = 200) (hg : htmlGuard r = false)
    (hd : decode r.body = .error e) :
    tablesOf (urlPipeline decode r fmt) = [] := by
  rw [urlPipeline, urlTryBody, if_pos h200, if_neg (by rw [hg]; exact Bool.false_ne_true), hd]
  dsimp only
  rw [List.nil_append]
  exact tablesOf_urlHandler r e

/-- C10: the upload path and the URL path run the same
decode-normalize-validate-export pipeline.  For the same decoder, the same
input bytes (a 200, non-HTML response carrying them) and the same chosen
format, the tables the two interactions offer have identical content bytes
and MIME labels; post-decode, the two conversion bodies agree on content,
MIME and raised exception for every decoded record, differing only in the
suggested filename. -/
theorem c10_upload_url_equivalence (decode : List Nat → Except Exn LasData) (bytes : List Nat)
    (r : HttpResponse) (fmt : OutFmt) (name : List Char)
    (h200 : r.status = 200) (hg : htmlGuard r = false) (hbody : r.body = bytes) :
    (tablesOf (uploadPipeline decode bytes fmt name)).map (fun t => (t.content, t.mime)) =
      (tablesOf (urlPipeline decode r fmt)).map (fun t => (t.content, t.mime)) ∧
    (∀ las : LasData,
      (tablesOf (uploadConvert las fmt name).1).map (fun t => (t.content, t.mime)) =
        (tablesOf (urlConvert las fmt).1).map (fun t => (t.content, t.mime)) ∧
      (uploadConvert las fmt name).2 = (urlConvert las fmt).2) := by
  have hconv : ∀ las : LasData,
      (tablesOf (uploadConvert las fmt name).1).map (fun t => (t.content, t.mime)) =
        (tablesOf (urlConvert las fmt).1).map (fun t => (t.content, t.mime)) ∧
      (uploadConvert las fmt name).2 = (urlConvert las fmt).2 := by
    intro las
    by_cases hc : (atleast_1d las.x).length = (atleast_1d las.y).length ∧
        (atleast_1d las.y).length = (atleast_1d las.z).length
    · cases fmt with
      | csv =>
        rw [uploadConvert_ok_csv las name hc, urlConvert_ok_csv las hc]
        exact ⟨rfl, rfl⟩
      | xyz =>
        rw [uploadConvert_ok_xyz las name hc, urlConvert_ok_xyz las hc]
        exact ⟨rfl, rfl⟩
    · rw [uploadConvert, urlConvert, if_pos hc, if_pos hc]
      exact ⟨rfl, rfl⟩
  refine ⟨?_, hconv⟩
  cases hd : decode bytes with
  | error e =>
    rw [tablesOf_uploadPipeline_err decode bytes fmt name e hd,
      tablesOf_urlPipeline_err decode r fmt e h200 hg (by rw [hbody]; exact hd)]
  | ok las =>
    rw [tablesOf_uploadPipeline_ok decode bytes fmt name las hd,
      tablesOf_urlPipeline_ok decode r fmt las h200 hg (by rw [hbody]; exact hd)]
    exact (hconv las).1

/-- C10's witness: a 200 binary response carrying the same bytes the upload
path sees, decoded to a one-point record. -/
theorem c10_upload_url_equivalence_witness :
    (tablesOf (uploadPipeline
        (fun _ => .ok ⟨.arr [⟨false, 1, 0⟩], .arr [⟨false, 2, 0⟩], .arr [⟨false, 3, 0⟩]⟩)
        [0] .csv "pts.laz".data)).map (fun t => (t.content, t.mime)) =
      (tablesOf (urlPipeline
        (fun _ => .ok ⟨.arr [⟨false, 1, 0⟩], .arr [⟨false, 2, 0⟩], .arr [⟨false, 3, 0⟩]⟩)
        ⟨200, "OK", [0], "application/octet-stream", ""⟩ .csv)).map
          (fun t => (t.content, t.mime)) ∧
    (∀ las : LasData,
      (tablesOf (uploadConvert las .csv "pts.laz".data).1).map (fun t => (t.content, t.mime)) =
        (tablesOf (urlConvert las .csv).1).map (fun t => (t.content, t.mime)) ∧
      (uploadConvert las .csv "pts.laz".data).2 = (urlConvert las .csv).2) :=
  c10_upload_url_equivalence
    (fun _ => .ok ⟨.arr [⟨false, 1, 0⟩], .arr [⟨false, 2, 0⟩], .arr [⟨false, 3, 0⟩]⟩)
    [0] ⟨200, "OK", [0], "application/octet-stream", ""⟩ .csv "pts.laz".data
    rfl (by decide) rfl

end LazApp
